import Mathlib

/-!
Verification of the speech pipeline in `src/sample.py` (class `BookToSpeech`).

The embedding covers, faithfully translated from the Python source:
the voice registry (`__init__` fields and `assign_voice`), the speaker
attributor (`detect_speaker_ml`), the sentence segmenter (the
`re.split` call at the top of `generate_audio`), and the
sentence-by-sentence audio pipeline of `generate_audio` (synthesis,
segment loading, track accumulation, temp-file bookkeeping and the
`finally` cleanup).  External collaborators (the spaCy parse, the TTS
engine, the wav loader) are passed in as parameters, since only their
interfaces are visible from the source.
-/

/-! ### Characters and Python string helpers -/

/-- The double-quote character. -/
def dquote : Char := Char.ofNat 34

/-- The single-quote character. -/
def squote : Char := Char.ofNat 39

/-- Python whitespace characters recognized by `\s` and `str.strip`
(space, tab, newline, carriage return, form feed, vertical tab). -/
def pyWhitespace (c : Char) : Bool :=
  (c == Char.ofNat 32) || (c == Char.ofNat 9) || (c == Char.ofNat 10) ||
  (c == Char.ofNat 13) || (c == Char.ofNat 12) || (c == Char.ofNat 11)

/-- Python `str.strip()`: drop leading and trailing whitespace. -/
def strip (s : List Char) : List Char :=
  ((s.dropWhile pyWhitespace).reverse.dropWhile pyWhitespace).reverse

/-! ### Voice registry (`__init__` lines 20-23, `assign_voice` lines 131-139) -/

/-- `self.available_voices` from `__init__`. -/
def available_voices : List String :=
  ["p225", "p226", "p227", "p228", "p229",
   "p230", "p231", "p232", "p233", "p234"]

/-- The mutable registry state: `self.character_voices` (as an association
list; keys are inserted only when absent, so they stay distinct) and
`self.next_voice_index`. -/
structure RegState where
  character_voices : List (String × String)
  next_voice_index : Nat

/-- Dictionary lookup in `character_voices`. -/
def lookupLbl : List (String × String) → String → Option String
  | [], _ => none
  | kv :: rest, c => if kv.1 = c then some kv.2 else lookupLbl rest c

/-- The registry right after `__init__`:
`character_voices = {"narrator": "p225"}`, `next_voice_index = 1`. -/
def initReg : RegState := RegState.mk [(("narrator"), ("p225"))] 1

/-- `assign_voice` (lines 131-139): if the label is already bound, return
its voice without touching the state; otherwise bind it to
`available_voices[next_voice_index]` and advance the cursor modulo the
pool size; if that indexing fails (`IndexError`), bind the label to
`"p225"` and leave the cursor alone. -/
def assign_voice (s : RegState) (character : String) : String × RegState :=
  match lookupLbl s.character_voices character with
  | some v => (v, s)
  | none =>
    match available_voices[s.next_voice_index]? with
    | some v =>
      (v, RegState.mk ((character, v) :: s.character_voices)
            ((s.next_voice_index + 1) % available_voices.length))
    | none =>
      (("p225"), RegState.mk ((character, ("p225")) :: s.character_voices)
            s.next_voice_index)

/-- Run a sequence of `assign_voice` calls, threading the state. -/
def runCalls (s : RegState) : List String → RegState
  | [] => s
  | c :: cs => runCalls (assign_voice s c).2 cs

/-- The labels that get freshly bound during a run, in first-encounter
order (a ghost observer of `runCalls`). -/
def freshLabels (s : RegState) : List String → List String
  | [] => []
  | c :: cs =>
    match lookupLbl s.character_voices c with
    | some _ => freshLabels (assign_voice s c).2 cs
    | none => c :: freshLabels (assign_voice s c).2 cs

/-! ### Registry lemmas -/

theorem assign_voice_bound (s : RegState) (c v : String)
    (h : lookupLbl s.character_voices c = some v) :
    assign_voice s c = (v, s) := by
  simp [assign_voice, h]

theorem lookupLbl_cons_ne (cv : List (String × String)) (c k x : String)
    (hck : c ≠ k) : lookupLbl ((c, x) :: cv) k = lookupLbl cv k := by
  simp [lookupLbl, hck]

theorem assign_voice_preserves (s : RegState) (c k v : String)
    (h : lookupLbl s.character_voices k = some v) :
    lookupLbl (assign_voice s c).2.character_voices k = some v := by
  cases hc : lookupLbl s.character_voices c with
  | some w => simp [assign_voice, hc, h]
  | none =>
    have hck : c ≠ k := by
      intro heq
      rw [heq, h] at hc
      exact Option.noConfusion hc
    cases hg : available_voices[s.next_voice_index]? with
    | some v2 => simp [assign_voice, hc, hg, lookupLbl, hck, h]
    | none => simp [assign_voice, hc, hg, lookupLbl, hck, h]

theorem runCalls_preserves (cs : List String) :
    ∀ (s : RegState) (k v : String),
    lookupLbl s.character_voices k = some v →
    lookupLbl (runCalls s cs).character_voices k = some v := by
  induction cs with
  | nil => intro s k v h; exact h
  | cons c rest ih =>
    intro s k v h
    exact ih (assign_voice s c).2 k v (assign_voice_preserves s c k v h)

theorem assign_voice_self (s : RegState) (c : String) :
    lookupLbl (assign_voice s c).2.character_voices c
      = some (assign_voice s c).1 := by
  cases hc : lookupLbl s.character_voices c with
  | some v => simp [assign_voice, hc]
  | none =>
    cases hg : available_voices[s.next_voice_index]? with
    | some v => simp [assign_voice, hc, hg, lookupLbl]
    | none => simp [assign_voice, hc, hg, lookupLbl]

/-- C1: voice-binding stability.  Starting from the fresh registry, after
any preliminary calls `pre`, once `assign_voice label` has been called,
any later call with the same label — after an arbitrary interleaving
`mid` of other calls — returns the identity assigned the first time and
leaves the registry state (both `character_voices` and
`next_voice_index`) unchanged: it is a pure lookup. -/
theorem voice_binding_stable (pre mid : List String) (label : String) :
    assign_voice (runCalls (assign_voice (runCalls initReg pre) label).2 mid) label
      = ((assign_voice (runCalls initReg pre) label).1,
         runCalls (assign_voice (runCalls initReg pre) label).2 mid) := by
  have h1 := assign_voice_self (runCalls initReg pre) label
  have h2 := runCalls_preserves mid (assign_voice (runCalls initReg pre) label).2
    label (assign_voice (runCalls initReg pre) label).1 h1
  exact assign_voice_bound _ _ _ h2

/-! ### Cursor invariant (C9) -/

theorem getElem?_isSome_of_lt : ∀ (l : List String) (n : Nat), n < l.length →
    (l[n]?).isSome = true := by
  intro l
  induction l with
  | nil => intro n h; exact absurd h (Nat.not_lt_zero n)
  | cons a t ih =>
    intro n h
    cases n with
    | zero => simp
    | succ m => simpa using ih m (Nat.lt_of_succ_lt_succ h)

theorem assign_voice_idx_lt (s : RegState) (c : String)
    (h : s.next_voice_index < available_voices.length) :
    (assign_voice s c).2.next_voice_index < available_voices.length := by
  cases hc : lookupLbl s.character_voices c with
  | some v => simpa [assign_voice, hc] using h
  | none =>
    cases hg : available_voices[s.next_voice_index]? with
    | some v =>
      simp only [assign_voice, hc, hg]
      exact Nat.mod_lt _ (by decide)
    | none => simpa [assign_voice, hc, hg] using h

theorem runCalls_idx_lt (cs : List String) : ∀ (s : RegState),
    s.next_voice_index < available_voices.length →
    (runCalls s cs).next_voice_index < available_voices.length := by
  induction cs with
  | nil => intro s h; exact h
  | cons c rest ih =>
    intro s h
    exact ih (assign_voice s c).2 (assign_voice_idx_lt s c h)

/-- C9: the `IndexError` fallback in `assign_voice` is dead code.  For
every sequence of calls from the initial registry, `next_voice_index`
stays a valid index into the (non-empty) voice pool, so the pool
indexing `available_voices[next_voice_index]` never fails. -/
theorem fallback_unreachable (calls : List String) :
    (runCalls initReg calls).next_voice_index < available_voices.length
    ∧ (available_voices[(runCalls initReg calls).next_voice_index]?).isSome = true
    ∧ available_voices ≠ [] := by
  have h := runCalls_idx_lt calls initReg (by decide)
  exact ⟨h, getElem?_isSome_of_lt available_voices _ h, by decide⟩

/-! ### First-encounter order and pool cycling (C2, C10) -/

theorem runCalls_idx_eq (cs : List String) : ∀ (s : RegState),
    s.next_voice_index < available_voices.length →
    (runCalls s cs).next_voice_index
      = (s.next_voice_index + (freshLabels s cs).length) % available_voices.length := by
  induction cs with
  | nil =>
    intro s h
    simp [runCalls, freshLabels, Nat.mod_eq_of_lt h]
  | cons c rest ih =>
    intro s h
    cases hc : lookupLbl s.character_voices c with
    | some v =>
      have hb := assign_voice_bound s c v hc
      simp only [runCalls, freshLabels, hc, hb]
      exact ih s h
    | none =>
      cases hg : available_voices[s.next_voice_index]? with
      | none =>
        exact absurd (getElem?_isSome_of_lt available_voices _ h)
          (by simp [hg])
      | some v =>
        have hstep : (assign_voice s c).2
            = RegState.mk ((c, v) :: s.character_voices)
                ((s.next_voice_index + 1) % available_voices.length) := by
          simp [assign_voice, hc, hg]
        have hlt : ((s.next_voice_index + 1) % available_voices.length)
            < available_voices.length := Nat.mod_lt _ (by decide)
        simp only [runCalls, freshLabels, hc, hstep]
        rw [ih _ (by simpa using hlt)]
        simp only [List.length_cons]
        rw [Nat.mod_add_mod]
        congr 1
        omega

theorem runCalls_binding (cs : List String) : ∀ (s : RegState) (i : Nat),
    s.next_voice_index < available_voices.length →
    i < (freshLabels s cs).length →
    lookupLbl (runCalls s cs).character_voices ((freshLabels s cs).getD i (""))
      = some (available_voices.getD
          ((s.next_voice_index + i) % available_voices.length) ("")) := by
  induction cs with
  | nil =>
    intro s i h hi
    simp [freshLabels] at hi
  | cons c rest ih =>
    intro s i h hi
    cases hc : lookupLbl s.character_voices c with
    | some v =>
      have hb := assign_voice_bound s c v hc
      simp only [runCalls, freshLabels, hc, hb]
      simp only [freshLabels, hc, hb] at hi
      exact ih s i h hi
    | none =>
      cases hg : available_voices[s.next_voice_index]? with
      | none =>
        exact absurd (getElem?_isSome_of_lt available_voices _ h)
          (by simp [hg])
      | some v =>
        have hstep : (assign_voice s c).2
            = RegState.mk ((c, v) :: s.character_voices)
                ((s.next_voice_index + 1) % available_voices.length) := by
          simp [assign_voice, hc, hg]
        have hv : available_voices.getD s.next_voice_index ("") = v := by
          simp [List.getD, hg]
        have hlt : ((s.next_voice_index + 1) % available_voices.length)
            < available_voices.length := Nat.mod_lt _ (by decide)
        cases i with
        | zero =>
          simp only [runCalls, freshLabels, hc, hstep, List.getD_cons_zero]
          have hself : lookupLbl ((c, v) :: s.character_voices) c = some v := by
            simp [lookupLbl]
          have := runCalls_preserves rest
            (RegState.mk ((c, v) :: s.character_voices)
              ((s.next_voice_index + 1) % available_voices.length)) c v hself
          rw [this, Nat.add_zero, Nat.mod_eq_of_lt h, hv]
        | succ j =>
          simp only [runCalls, freshLabels, hc, hstep, List.getD_cons_succ]
          simp only [freshLabels, hc, hstep, List.length_cons] at hi
          have hj : j < (freshLabels
              (RegState.mk ((c, v) :: s.character_voices)
                ((s.next_voice_index + 1) % available_voices.length)) rest).length := by
            omega
          have := ih (RegState.mk ((c, v) :: s.character_voices)
              ((s.next_voice_index + 1) % available_voices.length)) j hlt hj
          rw [this, Nat.mod_add_mod]
          have harith : s.next_voice_index + 1 + j = s.next_voice_index + (j + 1) := by
            omega
          rw [harith]

theorem pool_distinct : ∀ a ∈ List.range 10, ∀ b ∈ List.range 10, a ≠ b →
    available_voices.getD a ("") ≠ available_voices.getD b ("") := by decide

/-- C2: first-encounter distinctness.  For every call sequence from the
fresh registry: the cursor ends at `(1 + number of fresh labels) mod 10`
(it starts at 1 and advances `(i + 1) mod pool-size` on each fresh
binding); the i-th freshly encountered label is bound to pool entry
`(1 + i) mod 10`, i.e. voices are handed out in strict first-encounter
order from the fixed pool; and the first nine (pool size minus one)
distinct fresh labels — fresh labels are never the pre-bound narrator —
receive pairwise distinct voices, until the cursor cycles back. -/
theorem fresh_labels_distinct_voices (calls : List String) :
    (runCalls initReg calls).next_voice_index
        = (1 + (freshLabels initReg calls).length) % available_voices.length
    ∧ (∀ i, i < (freshLabels initReg calls).length →
        lookupLbl (runCalls initReg calls).character_voices
            ((freshLabels initReg calls).getD i (""))
          = some (available_voices.getD ((1 + i) % available_voices.length) ("")))
    ∧ (∀ i j, i < (freshLabels initReg calls).length →
        j < (freshLabels initReg calls).length → i < 9 → j < 9 → i ≠ j →
        lookupLbl (runCalls initReg calls).character_voices
            ((freshLabels initReg calls).getD i (""))
          ≠ lookupLbl (runCalls initReg calls).character_voices
            ((freshLabels initReg calls).getD j (""))) := by
  refine ⟨runCalls_idx_eq calls initReg (by decide), ?_, ?_⟩
  · intro i hi
    exact runCalls_binding calls initReg i (by decide) hi
  · intro i j hi hj hi9 hj9 hij
    have bi := runCalls_binding calls initReg i (by decide) hi
    have bj := runCalls_binding calls initReg j (by decide) hj
    rw [bi, bj]
    intro heq
    have hvals := Option.some.inj heq
    have hmi : (initReg.next_voice_index + i) % available_voices.length = 1 + i := by
      show (1 + i) % 10 = 1 + i
      exact Nat.mod_eq_of_lt (by omega)
    have hmj : (initReg.next_voice_index + j) % available_voices.length = 1 + j := by
      show (1 + j) % 10 = 1 + j
      exact Nat.mod_eq_of_lt (by omega)
    rw [hmi, hmj] at hvals
    exact pool_distinct (1 + i) (by simp [List.mem_range]; omega)
      (1 + j) (by simp [List.mem_range]; omega) (by omega) hvals

/-- Witness for C2 at the concrete run `assign_voice alice; assign_voice bob`:
the two fresh labels receive distinct voices. -/
theorem fresh_labels_distinct_voices_w :
    lookupLbl (runCalls initReg [("alice"), ("bob")]).character_voices
        ((freshLabels initReg [("alice"), ("bob")]).getD 0 (""))
      ≠ lookupLbl (runCalls initReg [("alice"), ("bob")]).character_voices
        ((freshLabels initReg [("alice"), ("bob")]).getD 1 ("")) :=
  (fresh_labels_distinct_voices [("alice"), ("bob")]).2.2 0 1
    (by decide) (by decide) (by decide) (by decide) (by decide)

/-- C10: reserved-voice collision after pool wrap.  The pool holds 10
voices, the narrator label is pre-bound to the first pool voice `p225`,
and the cursor starts at 1; consequently, in any run whose calls contain
at least ten fresh (hence non-narrator) labels, the tenth fresh label is
bound — via the modulo wrap to index 0 — to `p225`, the same voice the
narrator keeps, so after the pool cycles the reserved narrator voice is
no longer exclusive to the narrator. -/
theorem pool_wrap_collision (calls : List String)
    (h : 9 < (freshLabels initReg calls).length) :
    available_voices.length = 10
    ∧ initReg.next_voice_index = 1
    ∧ lookupLbl initReg.character_voices ("narrator") = some ("p225")
    ∧ lookupLbl (runCalls initReg calls).character_voices
        ((freshLabels initReg calls).getD 9 ("")) = some ("p225")
    ∧ lookupLbl (runCalls initReg calls).character_voices ("narrator")
        = some ("p225") := by
  refine ⟨rfl, rfl, rfl, ?_, ?_⟩
  · have := runCalls_binding calls initReg 9 (by decide) h
    exact this
  · exact runCalls_preserves calls initReg ("narrator") ("p225") rfl

/-- The ten distinct labels used to witness C10. -/
def callsTen : List String :=
  [("ca"), ("cb"), ("cc"), ("cd"), ("ce"), ("cf"), ("cg"), ("ch"), ("ci"), ("cj")]

/-- Witness for C10 at a concrete run with ten distinct fresh labels. -/
theorem pool_wrap_collision_w :
    available_voices.length = 10
    ∧ initReg.next_voice_index = 1
    ∧ lookupLbl initReg.character_voices ("narrator") = some ("p225")
    ∧ lookupLbl (runCalls initReg callsTen).character_voices
        ((freshLabels initReg callsTen).getD 9 ("")) = some ("p225")
    ∧ lookupLbl (runCalls initReg callsTen).character_voices ("narrator")
        = some ("p225") :=
  pool_wrap_collision callsTen (by decide)

/-! ### Speaker attributor (`detect_speaker_ml`, lines 45-80) -/

/-- A dependent of a parsed token, exposing `child.dep_` and `child.text`. -/
structure PChild where
  dep : String
  text : String

/-- A parsed token, exposing `token.lemma_` and `token.children`. -/
structure PToken where
  lemma_ : String
  children : List PChild

/-- The closed set of speech-reporting verbs (lines 56-58). -/
def speech_verbs : List String :=
  ["say", "said", "exclaim", "exclaimed", "shout", "shouted",
   "whisper", "whispered", "scream", "screamed", "yell", "yelled",
   "ask", "asked", "reply", "replied"]

/-- Python `str.lower()` restricted to basic latin letters (the speech
verbs are ASCII), written structurally over the character list. -/
def pyLower (s : String) : String := String.mk (s.data.map Char.toLower)

/-- The inner loop over `token.children` (lines 64-67): the text of the
first child whose dependency role is `nsubj` or `nsubjpass`. -/
def findSubjChild (children : List PChild) : Option String :=
  match children.find? (fun ch => (ch.dep == ("nsubj")) || (ch.dep == ("nsubjpass"))) with
  | some ch => some ch.text
  | none => none

/-- The outer loop over `doc` (lines 62-69), with the accumulator playing
the Python `speaker` variable: on a speech verb the first
nominal-subject child (if any) overwrites the accumulator, and the loop
stops only when the accumulated text is truthy (non-empty). -/
def scanSpeaker : List PToken → Option String → Option String
  | [], acc => acc
  | t :: ts, acc =>
    if pyLower t.lemma_ ∈ speech_verbs then
      match findSubjChild t.children with
      | some sp => if sp = ("") then scanSpeaker ts (some sp) else some sp
      | none => scanSpeaker ts acc
    else scanSpeaker ts acc

/-- `'"' in sentence or "'" in sentence` (line 73). -/
def hasQuote (s : List Char) : Bool :=
  s.contains dquote || s.contains squote

/-- A character matched by the regex class `["\']`. -/
def isQuoteChar (c : Char) : Bool := (c == dquote) || (c == squote)

/-- Helper for the regex `["\'](.*?)["\']` (line 51): the lazy group
`(.*?)` read from the character after an opening quote up to the nearest
closing quote character; `.` does not match a newline, so a newline
before any closing quote makes the attempt at this opening quote fail. -/
def scanClose : List Char → Option (List Char)
  | [] => none
  | c :: cs =>
    if isQuoteChar c then some []
    else if c == Char.ofNat 10 then none
    else
      match scanClose cs with
      | some r => some (c :: r)
      | none => none

/-- First match of `re.findall(r'["\'](.*?)["\']', sentence)`:
the regex engine tries each opening quote character left to right and
closes at the nearest quote character reachable without a newline. -/
def firstQuoted : List Char → Option (List Char)
  | [] => none
  | c :: cs =>
    if isQuoteChar c then
      match scanClose cs with
      | some content => some content
      | none => firstQuoted cs
    else firstQuoted cs

/-- Lines 72-76: the sentinel used when no truthy speaker was found. -/
def sentinelLabel (sentence : List Char) : String :=
  if hasQuote sentence then ("dialogue") else ("narrator")

/-- The final value of the Python `speaker` variable (lines 60-76). -/
def pickedSpeaker (sentence : List Char) (doc : List PToken) : String :=
  match scanSpeaker doc none with
  | none => sentinelLabel sentence
  | some s => if s = ("") then sentinelLabel sentence else s

/-- The final value of the Python `dialogue` variable (lines 48-53 and
78-79): the first quoted substring stripped, or the whole sentence when
there is none or it strips to the empty string. -/
def pickedDialogue (sentence : List Char) : List Char :=
  match firstQuoted sentence with
  | none => sentence
  | some q => if strip q = [] then sentence else strip q

/-- `detect_speaker_ml` (lines 45-80): returns the speaker label and the
utterance `f'"{dialogue}"'` re-wrapped in double quotes. -/
def detect_speaker_ml (sentence : List Char) (doc : List PToken) :
    String × List Char :=
  (pickedSpeaker sentence doc, dquote :: (pickedDialogue sentence ++ [dquote]))

theorem scanSpeaker_none (doc : List PToken)
    (h : ∀ t ∈ doc, pyLower t.lemma_ ∈ speech_verbs →
      findSubjChild t.children = none) :
    scanSpeaker doc none = none := by
  induction doc with
  | nil => rfl
  | cons t ts ih =>
    have hrest : ∀ u ∈ ts, pyLower u.lemma_ ∈ speech_verbs →
        findSubjChild u.children = none :=
      fun u hu => h u (by simp [hu])
    by_cases hv : pyLower t.lemma_ ∈ speech_verbs
    · have hc := h t (by simp) hv
      simp [scanSpeaker, hv, hc, ih hrest]
    · simp [scanSpeaker, hv, ih hrest]

/-- C6: sentinel policy.  For any sentence whose parse contains no
speech-reporting verb with a nominal-subject dependent, the returned
speaker label is the sentinel `dialogue` when the sentence contains a
quote character (double or single), and `narrator` otherwise. -/
theorem sentinel_policy (sentence : List Char) (doc : List PToken)
    (h : ∀ t ∈ doc, pyLower t.lemma_ ∈ speech_verbs →
      findSubjChild t.children = none) :
    (detect_speaker_ml sentence doc).1
      = if hasQuote sentence then ("dialogue") else ("narrator") := by
  simp [detect_speaker_ml, pickedSpeaker, scanSpeaker_none doc h, sentinelLabel]

/-- Witness for C6 at the sentence of the spec example, with an empty
parse: no quote characters, so the label is the narrator sentinel. -/
theorem sentinel_policy_w :
    (detect_speaker_ml (("The room was silent.").data) []).1
      = if hasQuote (("The room was silent.").data) then ("dialogue")
        else ("narrator") :=
  sentinel_policy (("The room was silent.").data) []
    (by intro t ht; exact absurd ht (List.not_mem_nil t))

/-- C7: utterance construction.  The utterance returned for any sentence
is the first quoted substring (stripped) when one exists and is
non-empty after stripping, and the full original sentence otherwise;
in every case it is re-wrapped in exactly one pair of double-quote
characters (it begins and ends with a double quote added around the
body), and it is never empty for a non-empty input sentence. -/
theorem utterance_construction (sentence : List Char) (doc : List PToken) :
    (∀ q, firstQuoted sentence = some q → strip q ≠ [] →
        (detect_speaker_ml sentence doc).2 = dquote :: (strip q ++ [dquote]))
    ∧ (∀ q, firstQuoted sentence = some q → strip q = [] →
        (detect_speaker_ml sentence doc).2 = dquote :: (sentence ++ [dquote]))
    ∧ (firstQuoted sentence = none →
        (detect_speaker_ml sentence doc).2 = dquote :: (sentence ++ [dquote]))
    ∧ (sentence ≠ [] →
        (detect_speaker_ml sentence doc).2 ≠ []
        ∧ ((detect_speaker_ml sentence doc).2).head? = some dquote
        ∧ ((detect_speaker_ml sentence doc).2).getLast? = some dquote) := by
  refine ⟨?_, ?_, ?_, ?_⟩
  · intro q hq hne
    simp [detect_speaker_ml, pickedDialogue, hq, hne]
  · intro q hq hemp
    simp [detect_speaker_ml, pickedDialogue, hq, hemp]
  · intro hq
    simp [detect_speaker_ml, pickedDialogue, hq]
  · intro hne
    refine ⟨by simp [detect_speaker_ml], by simp [detect_speaker_ml], ?_⟩
    show ((dquote :: pickedDialogue sentence) ++ [dquote]).getLast? = some dquote
    exact List.getLast?_concat _

/-! ### Witness for C7 -/

/-- Witness for C7 at a concrete quote-free sentence with an empty parse:
no quoted substring, so the whole sentence is wrapped. -/
theorem utterance_construction_w :
    (detect_speaker_ml (("Hi.").data) []).2
      = dquote :: ((("Hi.").data) ++ [dquote]) :=
  (utterance_construction (("Hi.").data) []).2.2.1 (by decide)

/-! ### Sentence segmenter (`re.split` at line 90) -/

/-- Sentence-terminal punctuation of the lookbehind class `[.!?]`. -/
def isTerminalPunct (c : Char) : Bool :=
  (c == Char.ofNat 46) || (c == Char.ofNat 33) || (c == Char.ofNat 63)

/-- The lookbehind `(?<=[.!?])`: does the previous character (when there
is one) end a sentence? -/
def checkPrev : Option Char → Bool
  | some p => isTerminalPunct p
  | none => false

/-- Character-by-character scan of `re.split(r'(?<=[.!?])\s+', text)`.
`prev` is the previous character of the original text, `inGap` records
that the scanner is inside a matched `\s+` delimiter run (greedy: the
whole whitespace run is consumed), and `acc` holds the current piece in
reverse. -/
def splitAux : Option Char → Bool → List Char → List Char → List (List Char)
  | _, _, acc, [] => [acc.reverse]
  | _, true, acc, c :: cs =>
    if pyWhitespace c then splitAux (some c) true acc cs
    else splitAux (some c) false (c :: acc) cs
  | prev, false, acc, c :: cs =>
    if pyWhitespace c && checkPrev prev then
      acc.reverse :: splitAux (some c) true [] cs
    else splitAux (some c) false (c :: acc) cs

/-- `sentences = re.split(r'(?<=[.!?])\s+', text)` (line 90): split at
every maximal whitespace run that immediately follows sentence-terminal
punctuation. -/
def splitSentences (text : List Char) : List (List Char) :=
  splitAux none false [] text

/-- C8: sentence segmentation.  The segmenter splits exactly at
whitespace following terminal punctuation; on the spec example text the
raw split already yields the three expected sentences, the
strip-and-drop-empty pass of the pipeline loop (lines 95-98) leaves them
unchanged, and none of them is empty after trimming. -/
theorem segmentation_example :
    splitSentences (("He said hi. She left! Did she go?").data)
      = [(("He said hi.").data), (("She left!").data), (("Did she go?").data)]
    ∧ ((splitSentences (("He said hi. She left! Did she go?").data)).map strip).filter
        (fun s => !s.isEmpty)
      = [(("He said hi.").data), (("She left!").data), (("Did she go?").data)]
    ∧ ∀ s ∈ splitSentences (("He said hi. She left! Did she go?").data),
        strip s ≠ [] := by decide

/-! ### Audio pipeline (`generate_audio`, lines 88-128) -/

/-- Outcome of one per-sentence external interaction: either the
`tts.tts_to_file` call raises (no temp file is written), or it writes
the temp file and the loaded, speed-adjusted segment is `seg` —
with `loadOk = false` when `AudioSegment.from_wav` (or the subsequent
fold-in) raises after the file was written. -/
inductive TTSOutcome where
  | fail : TTSOutcome
  | ok : List Int → Bool → TTSOutcome

/-- The segment delivered by a successful outcome. -/
def segOf : TTSOutcome → List Int
  | TTSOutcome.fail => []
  | TTSOutcome.ok seg _ => seg

/-- `AudioSegment.silent(duration=n)`: n milliseconds of silence. -/
def silence (n : Nat) : List Int := List.replicate n 0

/-- The loop state of `generate_audio`: the accumulating track
(`output_audio`), the recorded temp paths (`temp_files`), the temp files
actually written on disk, the indices for which synthesis was invoked
(a ghost trace), and the voice registry. -/
structure LoopState where
  output_audio : List Int
  temp_files : List Nat
  disk : List Nat
  synth_calls : List Nat
  reg : RegState

/-- The state at the top of the `try` block (lines 91-92). -/
def initLoop : LoopState :=
  LoopState.mk (silence 100) [] [] [] initReg

/-- The `for idx, sentence in enumerate(sentences)` loop (lines 95-119),
as an `Except`: `Except.error st` is an exception escaping the loop with
the side effects `st` already performed.  Per iteration: skip sentences
that strip to empty; attribute the speaker and resolve the voice;
invoke synthesis (recorded in `synth_calls`); on synthesis failure the
exception propagates with no temp file written; on success the temp
file `temp_idx` is on disk, and if loading succeeds the segment plus a
200 ms trailing silence is appended and the temp path is recorded in
`temp_files`, while a loading failure propagates with the file written
but unrecorded. -/
def runLoop (parse : List Char → List PToken) (outcome : Nat → TTSOutcome) :
    List (Nat × List Char) → LoopState → Except LoopState LoopState
  | [], st => Except.ok st
  | (idx, sent) :: rest, st =>
    if (strip sent).isEmpty then runLoop parse outcome rest st
    else
      match outcome idx with
      | TTSOutcome.fail =>
        Except.error (LoopState.mk st.output_audio st.temp_files st.disk
          (st.synth_calls ++ [idx])
          (assign_voice st.reg
            (detect_speaker_ml (strip sent) (parse (strip sent))).1).2)
      | TTSOutcome.ok seg loadOk =>
        if loadOk then
          runLoop parse outcome rest (LoopState.mk
            (st.output_audio ++ seg ++ silence 200)
            (st.temp_files ++ [idx])
            (st.disk ++ [idx])
            (st.synth_calls ++ [idx])
            (assign_voice st.reg
              (detect_speaker_ml (strip sent) (parse (strip sent))).1).2)
        else
          Except.error (LoopState.mk st.output_audio st.temp_files
            (st.disk ++ [idx])
            (st.synth_calls ++ [idx])
            (assign_voice st.reg
              (detect_speaker_ml (strip sent) (parse (strip sent))).1).2)

/-- The `finally` block (lines 125-128): remove every recorded temp file
from disk; what stays on disk are the written files never recorded. -/
def cleanup (disk temp : List Nat) : List Nat :=
  disk.filter (fun f => decide (f ∉ temp))

/-- The observable result of one `generate_audio` run. -/
structure GenResult where
  exported : Option (List Int)
  disk_after : List Nat
  final_reg : RegState
  synth_calls : List Nat

/-- `generate_audio` (lines 88-128): split the text, run the loop from
the initial state; on normal completion export the accumulated track
(line 121), on an exception log and export nothing (lines 123-124); in
both cases the `finally` cleanup runs. -/
def generate_audio (parse : List Char → List PToken)
    (outcome : Nat → TTSOutcome) (text : List Char) : GenResult :=
  match runLoop parse outcome ((splitSentences text).enum) initLoop with
  | Except.ok st =>
    GenResult.mk (some st.output_audio) (cleanup st.disk st.temp_files)
      st.reg st.synth_calls
  | Except.error st =>
    GenResult.mk none (cleanup st.disk st.temp_files) st.reg st.synth_calls

/-! ### Concrete pipeline inputs used by counterexamples and witnesses -/

/-- A trivial external parser: every sentence parses to no tokens. -/
def parse0 : List Char → List PToken := fun _ => []

/-- A one-sentence text. -/
def textHi : List Char := ("Hi.").data

/-- A two-sentence text. -/
def textTwo : List Char := ("Hi. Yo.").data

/-- Every synthesis call succeeds and loads, producing the segment `[1]`. -/
def outcomeOk1 : Nat → TTSOutcome := fun _ => TTSOutcome.ok [1] true

/-- The first synthesis call fails; later ones would succeed. -/
def outcomeFail0 : Nat → TTSOutcome :=
  fun i => if i = 0 then TTSOutcome.fail else TTSOutcome.ok [1] true

/-- Synthesis writes the temp file, but loading it back fails. -/
def outcomeLoadFail : Nat → TTSOutcome := fun _ => TTSOutcome.ok [5] false

/-! ### Pipeline lemmas -/

/-- The enumerated sentences the loop actually processes (those that do
not strip to empty). -/
def filterNE (items : List (Nat × List Char)) : List (Nat × List Char) :=
  items.filter (fun p => !(strip p.2).isEmpty)

/-- The track the code builds on an all-successful run: the 100 ms
leading silence, then each segment followed by the 200 ms trailing
silence — including after the last segment. -/
def expectedTrack (outcome : Nat → TTSOutcome)
    (items : List (Nat × List Char)) : List Int :=
  silence 100 ++
    ((filterNE items).map (fun p => segOf (outcome p.1) ++ silence 200)).flatten

theorem runLoop_ok (parse : List Char → List PToken)
    (outcome : Nat → TTSOutcome) :
    ∀ (items : List (Nat × List Char)) (st : LoopState),
    (∀ p ∈ items, (strip p.2).isEmpty = false →
      ∃ seg, outcome p.1 = TTSOutcome.ok seg true) →
    ∃ st2, runLoop parse outcome items st = Except.ok st2
      ∧ st2.output_audio = st.output_audio ++
          ((filterNE items).map (fun p => segOf (outcome p.1) ++ silence 200)).flatten
      ∧ st2.temp_files = st.temp_files ++ (filterNE items).map Prod.fst
      ∧ st2.disk = st.disk ++ (filterNE items).map Prod.fst
      ∧ st2.synth_calls = st.synth_calls ++ (filterNE items).map Prod.fst := by
  intro items
  induction items with
  | nil =>
    intro st h
    exact ⟨st, rfl, by simp [filterNE], by simp [filterNE], by simp [filterNE],
      by simp [filterNE]⟩
  | cons p rest ih =>
    intro st h
    obtain ⟨i, s⟩ := p
    have hrest : ∀ q ∈ rest, (strip q.2).isEmpty = false →
        ∃ seg, outcome q.1 = TTSOutcome.ok seg true :=
      fun q hq => h q (by simp [hq])
    cases hs : (strip s).isEmpty with
    | true =>
      obtain ⟨st2, hrun, hout, htemp, hdisk, hsyn⟩ := ih st hrest
      refine ⟨st2, ?_, ?_, ?_, ?_, ?_⟩
      · simpa [runLoop, hs] using hrun
      · simpa [filterNE, List.filter_cons, hs] using hout
      · simpa [filterNE, List.filter_cons, hs] using htemp
      · simpa [filterNE, List.filter_cons, hs] using hdisk
      · simpa [filterNE, List.filter_cons, hs] using hsyn
    | false =>
      obtain ⟨seg, hok⟩ := h (i, s) (by simp) hs
      obtain ⟨st2, hrun, hout, htemp, hdisk, hsyn⟩ := ih (LoopState.mk
        (st.output_audio ++ seg ++ silence 200)
        (st.temp_files ++ [i]) (st.disk ++ [i]) (st.synth_calls ++ [i])
        (assign_voice st.reg
          (detect_speaker_ml (strip s) (parse (strip s))).1).2) hrest
      refine ⟨st2, ?_, ?_, ?_, ?_, ?_⟩
      · simpa [runLoop, hs, hok] using hrun
      · rw [hout]
        simp [filterNE, List.filter_cons, hs, hok, segOf, List.append_assoc]
      · rw [htemp]
        simp [filterNE, List.filter_cons, hs]
      · rw [hdisk]
        simp [filterNE, List.filter_cons, hs]
      · rw [hsyn]
        simp [filterNE, List.filter_cons, hs]

theorem runLoop_append (parse : List Char → List PToken)
    (outcome : Nat → TTSOutcome) :
    ∀ (l1 l2 : List (Nat × List Char)) (st : LoopState),
    runLoop parse outcome (l1 ++ l2) st
      = (runLoop parse outcome l1 st).bind (runLoop parse outcome l2) := by
  intro l1
  induction l1 with
  | nil => intro l2 st; rfl
  | cons p rest ih =>
    intro l2 st
    obtain ⟨i, s⟩ := p
    cases hs : (strip s).isEmpty with
    | true =>
      simp only [List.cons_append, runLoop, hs, if_true]
      exact ih l2 st
    | false =>
      cases ho : outcome i with
      | fail => simp [List.cons_append, runLoop, hs, ho, Except.bind]
      | ok seg lo =>
        cases lo with
        | true =>
          simp only [List.cons_append, runLoop, hs, ho, if_true,
            Bool.false_eq_true, if_false]
          exact ih l2 _
        | false => simp [List.cons_append, runLoop, hs, ho, Except.bind]

theorem cleanup_eq_nil : ∀ (d t : List Nat), (∀ x ∈ d, x ∈ t) →
    cleanup d t = [] := by
  intro d
  induction d with
  | nil => intro t h; rfl
  | cons x d2 ih =>
    intro t h
    have hx : x ∈ t := h x (by simp)
    have hrest := ih t (fun y hy => h y (by simp [hy]))
    simp [cleanup, List.filter_cons, hx]
    simpa [cleanup] using hrest

/-! ### C3: track assembly -/

set_option maxRecDepth 10000 in
/-- Counterexample to C3 as stated: on a one-sentence run whose only
segment is `[1]`, the exported track is the leading silence, the
segment, and then the 200 ms trailing silence — it does not end with
the segment, so it differs from leading-silence ++ segment. -/
theorem track_assembly_cex :
    (generate_audio parse0 outcomeOk1 textHi).exported
        = some (silence 100 ++ [1] ++ silence 200)
    ∧ (generate_audio parse0 outcomeOk1 textHi).exported
        ≠ some (silence 100 ++ ([1] : List Int)) := by
  constructor
  · decide
  · decide

/-- C3 (amended): order-preserving track assembly with a trailing
silence after every segment.  If every non-empty sentence synthesizes
and loads successfully, the exported track is the 100 ms leading
silence followed by, for each sentence in order, its segment and then
the 200 ms trailing silence (also after the last segment); the trailing
silence is longer than the leading one. -/
theorem track_assembly_amended (parse : List Char → List PToken)
    (outcome : Nat → TTSOutcome) (text : List Char)
    (h : ∀ p ∈ (splitSentences text).enum, (strip p.2).isEmpty = false →
      ∃ seg, outcome p.1 = TTSOutcome.ok seg true) :
    (generate_audio parse outcome text).exported
        = some (expectedTrack outcome ((splitSentences text).enum))
    ∧ (silence 100).length < (silence 200).length := by
  obtain ⟨st2, hrun, hout, _, _, _⟩ :=
    runLoop_ok parse outcome ((splitSentences text).enum) initLoop h
  constructor
  · unfold generate_audio
    rw [hrun]
    simp [hout, expectedTrack, initLoop]
  · decide

/-- Witness for the amended C3 at a concrete all-successful run. -/
theorem track_assembly_amended_w :
    (generate_audio parse0 outcomeOk1 textHi).exported
        = some (expectedTrack outcomeOk1 ((splitSentences textHi).enum))
    ∧ (silence 100).length < (silence 200).length :=
  track_assembly_amended parse0 outcomeOk1 textHi
    (by intro p hp hne; exact ⟨[1], rfl⟩)

/-! ### C4: behavior on a synthesis failure -/

set_option maxRecDepth 10000 in
/-- Counterexample to C4 as stated: on the two-sentence text, when the
first synthesis call fails, the run exports nothing and synthesis is
never attempted for the second sentence — the failure is not skipped
and the pipeline does not continue. -/
theorem synthesis_failure_cex :
    (generate_audio parse0 outcomeFail0 textTwo).exported = none
    ∧ (generate_audio parse0 outcomeFail0 textTwo).synth_calls = [0] := by
  constructor
  · decide
  · decide

/-- C4 (amended): a synthesis failure aborts the remainder of the run.
If the sentences before position `i` all synthesize and load
successfully and the synthesis call for the non-empty sentence at `i`
fails, then the exception escapes the loop: no output track is
exported, synthesis is attempted exactly for the non-empty sentences up
to and including `i` (none after it), and — since the earlier temp
files were all recorded — the `finally` cleanup leaves no temp file on
disk.  The error is caught by the surrounding handler, so the call
still returns normally. -/
theorem synthesis_failure_aborts (parse : List Char → List PToken)
    (outcome : Nat → TTSOutcome) (text : List Char)
    (pre : List (Nat × List Char)) (i : Nat) (s : List Char)
    (post : List (Nat × List Char))
    (henum : (splitSentences text).enum = pre ++ (i, s) :: post)
    (hpre : ∀ p ∈ pre, (strip p.2).isEmpty = false →
      ∃ seg, outcome p.1 = TTSOutcome.ok seg true)
    (hs : (strip s).isEmpty = false)
    (hfail : outcome i = TTSOutcome.fail) :
    (generate_audio parse outcome text).exported = none
    ∧ (generate_audio parse outcome text).synth_calls
        = (filterNE pre).map Prod.fst ++ [i]
    ∧ (generate_audio parse outcome text).disk_after = [] := by
  obtain ⟨st1, hrun1, hout1, htemp1, hdisk1, hsyn1⟩ :=
    runLoop_ok parse outcome pre initLoop hpre
  have hstep : runLoop parse outcome ((i, s) :: post) st1
      = Except.error (LoopState.mk st1.output_audio st1.temp_files st1.disk
          (st1.synth_calls ++ [i])
          (assign_voice st1.reg
            (detect_speaker_ml (strip s) (parse (strip s))).1).2) := by
    simp [runLoop, hs, hfail]
  have hall : runLoop parse outcome ((splitSentences text).enum) initLoop
      = Except.error (LoopState.mk st1.output_audio st1.temp_files st1.disk
          (st1.synth_calls ++ [i])
          (assign_voice st1.reg
            (detect_speaker_ml (strip s) (parse (strip s))).1).2) := by
    rw [henum, runLoop_append, hrun1]
    exact hstep
  unfold generate_audio
  rw [hall]
  refine ⟨rfl, ?_, ?_⟩
  · simp [hsyn1, initLoop]
  · show cleanup st1.disk st1.temp_files = []
    apply cleanup_eq_nil
    intro x hx
    rw [hdisk1] at hx
    rw [htemp1]
    exact hx

/-- Witness for the amended C4 at a concrete run: the first of two
sentences fails to synthesize. -/
theorem synthesis_failure_aborts_w :
    (generate_audio parse0 outcomeFail0 textTwo).exported = none
    ∧ (generate_audio parse0 outcomeFail0 textTwo).synth_calls
        = (filterNE []).map Prod.fst ++ [0]
    ∧ (generate_audio parse0 outcomeFail0 textTwo).disk_after = [] :=
  synthesis_failure_aborts parse0 outcomeFail0 textTwo [] 0 (("Hi.").data)
    [(1, ("Yo.").data)] (by decide)
    (by intro p hp; exact absurd hp (List.not_mem_nil p)) (by decide) rfl

/-! ### C5: temp-file cleanup -/

set_option maxRecDepth 10000 in
/-- C5 evaluated at its failing input: one sentence, synthesis writes
`temp_0.wav` successfully, but loading the segment back fails.  The
temp path was not yet recorded in `temp_files`, so the `finally`
cleanup misses it and the file is still on disk after `generate_audio`
returns (and nothing is exported) — contradicting the claim that no
temporary artifact survives any exit path. -/
theorem temp_leak_on_load_failure :
    (generate_audio parse0 outcomeLoadFail textHi).disk_after = [0]
    ∧ (generate_audio parse0 outcomeLoadFail textHi).exported = none := by
  constructor
  · decide
  · decide
